import Mathlib

/-!
Shallow embedding of the dual-copy software transactional memory of this
repository (the complete implementation in src/unnamed/part_001, plus the
tm_free variant of src/338700/tm.c): word controls, the per-word read and
write protocol (`read_word`, `write_word`), the word-by-word `tm_read` /
`tm_write` loops with the stored word-index addressing scheme of `tm_alloc`,
region creation and alignment adjustment, `tm_end`, and both `tm_free`
variants.  Machine bytes are modelled as `List Nat` (one entry per byte);
`memcpy(dst, src, n)` becomes splicing the first `n` bytes of `src` into
`dst` at the byte offset the C destination pointer denotes.
-/

/-- Sentinel transaction id `NO_TXN = 0` (part_001 line 35). -/
def NO_TXN : Nat := 0

/-- Sentinel id `read_only_tx = 1` (part_001 line 36): every read-only
transaction is given this id by tm_begin. -/
def read_only_tx : Nat := 1

/-- Byte strings: one `Nat` per byte. -/
abbrev Bytes := List Nat

/-- transaction_t (part_001 lines 39-42): the id handed out by tm_begin and
the read-only flag.  The struct has no abort flag and no other field. -/
structure Transaction where
  id : Nat
  is_ro : Bool
deriving Repr, DecidableEq

/-- word_control_t (part_001 lines 44-49): the per-word dual-version control
structure.  Its three fields `is_a_valid`, `is_written`, `first_accessor`
are the entirety of the per-word bookkeeping; the source has no
read-by-others flag. -/
structure WordControl where
  is_a_valid : Bool
  is_written : Bool
  first_accessor : Nat
deriving Repr, DecidableEq

/-- Word-control array reads in the C are in bounds; an out-of-range lookup
in the model returns the value every control is initialized to
(part_001 lines 96-100 and 390-394). -/
instance : Inhabited WordControl := ⟨⟨true, false, NO_TXN⟩⟩

/-- segment_t (part_001 lines 51-60) restricted to the fields the embedded
operations read or write: the two copies and the word-control array.  The
byte size, word count and prev/next links of the C struct are bookkeeping
that no embedded operation inspects (part_001's tm_free returns before
touching the links). -/
structure Segment where
  copy_a : Bytes
  copy_b : Bytes
  word_controls : List WordControl
deriving Repr, DecidableEq

/-- shared_region_t (part_001 lines 62-66): the alignment shared by all
segments and the first, non-freeable segment.  The global lock is a
concurrency device with no bearing on the embedded data transformations. -/
structure Region where
  alignment : Nat
  segment : Segment
deriving Repr, DecidableEq

/-- memcpy into `buf` at byte offset `off` from byte string `src`:
`buf.take off ++ src ++` the rest of `buf`. -/
def writeAt (buf : Bytes) (off : Nat) (src : Bytes) : Bytes :=
  buf.take off ++ src ++ buf.drop (off + src.length)

/-- Result of read_word: the continue flag, the bytes memcpyed to the
caller's buffer (empty when the call aborts and copies nothing) and the
segment state after the call. -/
structure ReadResult where
  ok : Bool
  target : Bytes
  segment : Segment
deriving Repr, DecidableEq

/-- read_word (part_001 lines 258-283), translated clause by clause.  Note
that the C memcpys from `readable_copy` / `writable_copy`, i.e. from byte
offset 0 of the chosen copy array, whatever `index` is. -/
def read_word (index : Nat) (alignment : Nat) (transaction : Transaction)
    (segment : Segment) : ReadResult :=
  let word := segment.word_controls.getD index default
  let readable_copy := if word.is_a_valid then segment.copy_a else segment.copy_b
  let writable_copy := if word.is_a_valid then segment.copy_b else segment.copy_a
  if transaction.is_ro then
    { ok := true, target := readable_copy.take alignment, segment := segment }
  else
    if word.is_written then
      if transaction.id = word.first_accessor then
        { ok := true, target := writable_copy.take alignment, segment := segment }
      else
        { ok := false, target := [], segment := segment }
    else
      let word1 : WordControl := { word with first_accessor := transaction.id }
      let segment1 :=
        if word.first_accessor = NO_TXN then
          { segment with word_controls := segment.word_controls.set index word1 }
        else
          segment
      { ok := true, target := readable_copy.take alignment, segment := segment1 }

/-- Result of write_word: the continue flag and the segment state after. -/
structure WriteResult where
  ok : Bool
  segment : Segment
deriving Repr, DecidableEq

/-- Overwrite the writable copy: copy B when `is_a_valid` holds, copy A
otherwise (part_001 line 317). -/
def setWritable (segment : Segment) (is_a_valid : Bool) (bytes : Bytes) : Segment :=
  if is_a_valid then { segment with copy_b := bytes }
  else { segment with copy_a := bytes }

/-- write_word (part_001 lines 314-338).  `source` is the byte string the C
source pointer denotes; the memcpy lays its first `alignment` bytes over
byte offset 0 of the writable copy. -/
def write_word (source : Bytes) (index : Nat) (alignment : Nat)
    (transaction : Transaction) (segment : Segment) : WriteResult :=
  let word := segment.word_controls.getD index default
  let writable_copy := if word.is_a_valid then segment.copy_b else segment.copy_a
  let written_copy := source.take alignment ++ writable_copy.drop alignment
  if word.is_written then
    if transaction.id = word.first_accessor then
      { ok := true, segment := setWritable segment word.is_a_valid written_copy }
    else
      { ok := false, segment := segment }
  else
    if word.first_accessor ≠ NO_TXN ∧ word.first_accessor ≠ transaction.id then
      { ok := false, segment := segment }
    else
      let word1 : WordControl :=
        { word with first_accessor := transaction.id, is_written := true }
      let segment1 := setWritable segment word.is_a_valid written_copy
      { ok := true, segment :=
          { segment1 with word_controls :=
              segment1.word_controls.set index word1 } }

/-- The four bytes of a little-endian C int holding `n` (the stored word
indices are small and nonnegative). -/
def intToBytes (n : Nat) : Bytes :=
  [n % 256, n / 256 % 256, n / 65536 % 256, n / 16777216 % 256]

/-- Reading `*(int *) p` at byte offset `off`: decode four little-endian
bytes (missing bytes read as 0). -/
def intAt (data : Bytes) (off : Nat) : Nat :=
  data.getD off 0 + 256 * data.getD (off + 1) 0 +
    65536 * data.getD (off + 2) 0 + 16777216 * data.getD (off + 3) 0

/-- The store `*(int *)(base + off) = n`. -/
def storeInt (buf : Bytes) (off : Nat) (n : Nat) : Bytes :=
  writeAt buf off (intToBytes n)

/-- The index-initialization loop of tm_alloc (part_001 lines 432-435): for
each `index` below `n`, store the int `index` at byte offset
`alignment * index` of the segment data area. -/
def initIndices (buf : Bytes) (alignment : Nat) : Nat → Bytes
  | 0 => buf
  | n + 1 => storeInt (initIndices buf alignment n) (alignment * n) n

/-- The client-visible data area of a segment fresh out of tm_alloc: the int
`index` at the start of every `alignment`-byte slot.  The C leaves the bytes
after each stored int uninitialized; the model fixes them at 0, and no
theorem below reads them. -/
def segment_indices (num_words alignment : Nat) : Bytes :=
  initIndices (List.replicate (num_words * alignment) 0) alignment num_words

/-- The loop of tm_read (part_001 lines 303-310), with
`fuel = index_end - index` remaining iterations.  Each surviving iteration
memcpys `alignment` bytes to `target + index * alignment` — the absolute
word index, exactly as in the C (line 304). -/
def tm_read_loop : Nat → Nat → Nat → Transaction → Segment → Bytes →
    Bool × Bytes × Segment
  | 0, _, _, _, segment, target => (true, target, segment)
  | fuel + 1, index, alignment, transaction, segment, target =>
    let r := read_word index alignment transaction segment
    if r.ok then
      tm_read_loop fuel (index + 1) alignment transaction r.segment
        (writeAt target (index * alignment) r.target)
    else
      (false, target, segment)

/-- tm_read (part_001 lines 295-312).  The C source pointer is the address
of word `k` inside the owning segment's data area `data`, so
`index_start = *(int *) source` is the int stored at byte offset
`k * alignment` and `index_end = *(int *)(source + size)` the one at
`k * alignment + size`. -/
def tm_read (alignment : Nat) (data : Bytes) (k : Nat) (size : Nat)
    (transaction : Transaction) (segment : Segment) (target : Bytes) :
    Bool × Bytes × Segment :=
  let index_start := intAt data (k * alignment)
  let index_end := intAt data (k * alignment + size)
  tm_read_loop (index_end - index_start) index_start alignment transaction
    segment target

/-- The loop of tm_write (part_001 lines 359-366): for each surviving index
it passes `source + index * alignment` — again the absolute word index
(line 360) — to write_word. -/
def tm_write_loop : Nat → Nat → Nat → Bytes → Transaction → Segment →
    Bool × Segment
  | 0, _, _, _, _, segment => (true, segment)
  | fuel + 1, index, alignment, source, transaction, segment =>
    let r := write_word (source.drop (index * alignment)) index alignment
      transaction segment
    if r.ok then
      tm_write_loop fuel (index + 1) alignment source transaction r.segment
    else
      (false, segment)

/-- tm_write (part_001 lines 350-368); `data` is the data area of the
segment the C target pointer (naming word `k`) points into. -/
def tm_write (alignment : Nat) (data : Bytes) (k : Nat) (size : Nat)
    (source : Bytes) (transaction : Transaction) (segment : Segment) :
    Bool × Segment :=
  let index_start := intAt data (k * alignment)
  let index_end := intAt data (k * alignment + size)
  tm_write_loop (index_end - index_start) index_start alignment source
    transaction segment

/-- sizeof(void *) = sizeof(struct segment_t *) on the target platform. -/
def PTR_SIZE : Nat := 8

/-- tm_create (part_001 lines 77-150), allocation failures aside: the
alignment adjustment of lines 84-87, `num_words = size / align` (the C
divides by the requested align, line 90), every word control initialized to
`{is_a_valid := true, is_written := false, first_accessor := NO_TXN}`
(lines 96-100), both copies zeroed (lines 146-147). -/
def tm_create (size align : Nat) : Region :=
  { alignment := if align < PTR_SIZE then PTR_SIZE else align,
    segment :=
      { copy_a := List.replicate size 0,
        copy_b := List.replicate size 0,
        word_controls :=
          List.replicate (size / align) ⟨true, false, NO_TXN⟩ } }

/-- tm_align (part_001 lines 201-204). -/
def tm_align (region : Region) : Nat :=
  region.alignment

/-- tm_end (part_001 lines 244-256): releases the region lock, frees the
transaction descriptor and returns true unconditionally.  It never inspects
whether any earlier read or write of the transaction failed, and it changes
no word state. -/
def tm_end (_transaction : Transaction) : Bool :=
  true

/-- tm_free of src/unnamed/part_001 (lines 451-476): the body begins with
`return true;` (line 452), so the region and the transaction are untouched
and every call, whatever `target` names, reports success. -/
def tm_free (region : Region) (_transaction : Transaction) (_target : Nat) :
    Bool × Region :=
  (true, region)

/-- tm_free of src/338700/tm.c (lines 334-355) at the level of the region's
segment list (segments named by their base addresses): the segment is
unlinked from the doubly linked list, the `free(segment)` call is commented
out, and the function returns true with no check that `target` is not the
first segment; an address owned by no segment is undefined behaviour in the
C, and the model then leaves the list unchanged. -/
def tm_free_338700 (segment_list : List Nat) (target : Nat) :
    Bool × List Nat :=
  (true, segment_list.filter (fun s => s ≠ target))

/-- The readable copy of word `index` of a segment: the copy its valid-copy
flag selects. -/
def readableCopy (segment : Segment) (index : Nat) : Bytes :=
  if (segment.word_controls.getD index default).is_a_valid then segment.copy_a
  else segment.copy_b

/-- The clause "the read sets w.read_by_others to true" of claim C1,
rendered on the code's state: the `is_a_valid` / `is_written` /
`first_accessor` triple is the whole of the per-word bookkeeping in the
source (word_control_t has no read_by_others field), so newly recording a
true flag on word `index` would entail that the word's control state after
the read differs from the state before it. -/
def setsReadByOthers (pre post : Segment) (index : Nat) : Prop :=
  post.word_controls.getD index default ≠ pre.word_controls.getD index default

/-- A fresh one-word region segment of alignment 8, as tm_create builds it. -/
def seg0 : Segment :=
  { copy_a := List.replicate 8 0, copy_b := List.replicate 8 0,
    word_controls := [⟨true, false, NO_TXN⟩] }

/-- The first read-write transaction tm_begin hands out (counter starts at 2). -/
def tx2 : Transaction := ⟨2, false⟩

/-- The second read-write transaction. -/
def tx3 : Transaction := ⟨3, false⟩

/-- A read-only transaction (id `read_only_tx`). -/
def ro_txn : Transaction := ⟨read_only_tx, true⟩

/-- Word 0 of `seg0` after read-write transaction 2 has read it once:
first_accessor = 2, still unwritten. -/
def seg1 : Segment := (read_word 0 8 tx2 seg0).segment

/-- Eight bytes a transaction writes in the round-trip scenario of C4. -/
def bytesB : Bytes := [1, 2, 3, 4, 5, 6, 7, 8]

/-- `seg0` after transaction 2 has written `bytesB` to word 0: the bytes sit
in the writable copy B, the word is marked written with first accessor 2. -/
def segC4 : Segment := (write_word bytesB 0 8 tx2 seg0).segment

/-- The stored-index data area of a three-word segment with alignment 8. -/
def data3 : Bytes := segment_indices 3 8

/-- A three-word segment (alignment 8) whose committed copy A holds the
recognizable bytes 10..33, all words fresh. -/
def segC3 : Segment :=
  { copy_a := (List.range 24).map (fun b => b + 10),
    copy_b := List.replicate 24 0,
    word_controls := List.replicate 3 ⟨true, false, NO_TXN⟩ }

/-- A three-word segment in which word 0 was already written by transaction
5 this epoch and words 1 and 2 are fresh. -/
def segC5 : Segment :=
  { copy_a := List.replicate 24 0, copy_b := List.replicate 24 0,
    word_controls :=
      [⟨true, true, 5⟩, ⟨true, false, NO_TXN⟩, ⟨true, false, NO_TXN⟩] }

/-- The control state of word `index` (the C array access
`segment->word_controls[index]`). -/
def wordAt (segment : Segment) (index : Nat) : WordControl :=
  segment.word_controls.getD index default

/-- `readable_copy` of read_word line 261: the copy selected by the word's
valid-copy flag. -/
def readableAt (segment : Segment) (index : Nat) : Bytes :=
  if (wordAt segment index).is_a_valid then segment.copy_a else segment.copy_b

/-- `writable_copy` of read_word line 262 / write_word line 317: the copy the
word's valid-copy flag does not select. -/
def writableAt (segment : Segment) (index : Nat) : Bytes :=
  if (wordAt segment index).is_a_valid then segment.copy_b else segment.copy_a

/-- The segment after read_word line 278 recorded `id2` as first accessor of
word `index`. -/
def recordFirstAccessor (segment : Segment) (index : Nat) (id2 : Nat) : Segment :=
  let word := wordAt segment index
  let word1 : WordControl := { word with first_accessor := id2 }
  { segment with word_controls := segment.word_controls.set index word1 }

/-- The writable copy of word `index` after `memcpy(writable_copy, source,
alignment)`: the first `alignment` bytes of `source` over byte offset 0. -/
def writtenCopyAt (segment : Segment) (index alignment : Nat) (source : Bytes) :
    Bytes :=
  source.take alignment ++ (writableAt segment index).drop alignment

/-- The segment after the success branch of write_word lines 330-336:
writable copy overwritten, `first_accessor := id2`, `is_written := true`. -/
def commitWrite (segment : Segment) (index : Nat) (id2 : Nat)
    (alignment : Nat) (source : Bytes) : Segment :=
  let word := wordAt segment index
  let word1 : WordControl := { word with first_accessor := id2, is_written := true }
  let segment1 :=
    setWritable segment word.is_a_valid (writtenCopyAt segment index alignment source)
  { segment1 with word_controls := segment1.word_controls.set index word1 }

/-! ## Theorems -/

/-- C1 (amended): for every read-write transaction t reading word `index`:
if the word is written and t is its first accessor, the read returns the
writable copy's bytes and succeeds; if the word is written and the first
accessor differs from t's id, the read aborts; if the word is unwritten, the
read returns the readable copy's bytes and never aborts, setting
first_accessor to t's id when it was NO_TXN and leaving the word's control
state entirely unchanged when first_accessor was already some other id (the
source has no read_by_others field to set). -/
theorem claim_C1 (index alignment : Nat) (transaction : Transaction)
    (segment : Segment) (h_rw : transaction.is_ro = false) :
    ((wordAt segment index).is_written = true →
      transaction.id = (wordAt segment index).first_accessor →
      read_word index alignment transaction segment =
        ⟨true, (writableAt segment index).take alignment, segment⟩) ∧
    ((wordAt segment index).is_written = true →
      transaction.id ≠ (wordAt segment index).first_accessor →
      (read_word index alignment transaction segment).ok = false) ∧
    ((wordAt segment index).is_written = false →
      (wordAt segment index).first_accessor = NO_TXN →
      read_word index alignment transaction segment =
        ⟨true, (readableAt segment index).take alignment,
          recordFirstAccessor segment index transaction.id⟩) ∧
    ((wordAt segment index).is_written = false →
      (wordAt segment index).first_accessor ≠ NO_TXN →
      read_word index alignment transaction segment =
        ⟨true, (readableAt segment index).take alignment, segment⟩) := by
  refine ⟨?_, ?_, ?_, ?_⟩ <;> intro h1 h2 <;>
    simp only [wordAt] at h1 h2 <;>
    simp only [read_word, wordAt, readableAt, writableAt, recordFirstAccessor,
      h_rw, h1, h2] <;>
    split_ifs <;> simp_all

/-- C1 witness: transaction 2 reading the fresh word 0 of `seg0` succeeds,
returns the readable bytes and records first_accessor = 2. -/
theorem claim_C1_witness :
    read_word 0 8 tx2 seg0 =
      ⟨true, List.replicate 8 0,
        { copy_a := List.replicate 8 0, copy_b := List.replicate 8 0,
          word_controls := [⟨true, false, 2⟩] }⟩ := by
  have h := (claim_C1 0 8 tx2 seg0 rfl).2.2.1 rfl rfl
  exact h.trans (by decide)

/-- C1 counterexample: word 0 of `seg1` is unwritten with first accessor 2;
transaction 3's read succeeds, but — contrary to the claim's clause that the
read "sets w.read_by_others to true" — it changes nothing: the source's
word control has no read_by_others field and the word's control state after
the read is identical to the state before it, so no flag is newly set. -/
theorem claim_C1_counterexample :
    seg1.word_controls = [⟨true, false, 2⟩] ∧
    (read_word 0 8 tx3 seg1).ok = true ∧
    ¬ setsReadByOthers seg1 (read_word 0 8 tx3 seg1).segment 0 := by
  refine ⟨by decide, by decide, ?_⟩
  intro h
  exact h (by decide)

/-- C2 (confirmed): for every transaction t writing word `index`: if the
word is written, the write succeeds — overwriting the writable copy —
exactly when first_accessor is t's id and aborts otherwise; if the word is
unwritten, the write aborts when first_accessor is neither NO_TXN nor t's
id, and otherwise copies the source bytes into the writable copy, sets
is_written and first_accessor, and succeeds. -/
theorem claim_C2 (source : Bytes) (index alignment : Nat)
    (transaction : Transaction) (segment : Segment) :
    ((wordAt segment index).is_written = true →
      transaction.id = (wordAt segment index).first_accessor →
      write_word source index alignment transaction segment =
        ⟨true, setWritable segment (wordAt segment index).is_a_valid
          (writtenCopyAt segment index alignment source)⟩) ∧
    ((wordAt segment index).is_written = true →
      transaction.id ≠ (wordAt segment index).first_accessor →
      write_word source index alignment transaction segment = ⟨false, segment⟩) ∧
    ((wordAt segment index).is_written = false →
      (wordAt segment index).first_accessor ≠ NO_TXN →
      (wordAt segment index).first_accessor ≠ transaction.id →
      write_word source index alignment transaction segment = ⟨false, segment⟩) ∧
    ((wordAt segment index).is_written = false →
      ((wordAt segment index).first_accessor = NO_TXN ∨
        (wordAt segment index).first_accessor = transaction.id) →
      write_word source index alignment transaction segment =
        ⟨true, commitWrite segment index transaction.id alignment source⟩) := by
  refine ⟨?_, ?_, ?_, ?_⟩
  · intro h1 h2
    simp only [wordAt] at h1 h2
    simp only [write_word, wordAt, writtenCopyAt, writableAt, h1, h2]
    split_ifs <;> simp_all
  · intro h1 h2
    simp only [wordAt] at h1 h2
    simp only [write_word, wordAt, h1, h2]
    split_ifs <;> simp_all
  · intro h1 h2 h3
    simp only [wordAt] at h1 h2 h3
    simp only [write_word, wordAt, h1, h2, h3]
    split_ifs <;> simp_all
  · intro h1 h2
    rcases h2 with h2 | h2 <;> simp only [wordAt] at h1 h2 <;>
      simp only [write_word, commitWrite, wordAt, writtenCopyAt, writableAt,
        setWritable, h1, h2] <;>
      split_ifs <;> simp_all

/-- C2 witness: transaction 2 writing eight 9-bytes over the fresh word 0 of
`seg0` succeeds, lays them into writable copy B and marks the word written
with first accessor 2. -/
theorem claim_C2_witness :
    write_word [9, 9, 9, 9, 9, 9, 9, 9] 0 8 tx2 seg0 =
      ⟨true, { copy_a := List.replicate 8 0, copy_b := [9, 9, 9, 9, 9, 9, 9, 9],
               word_controls := [⟨true, true, 2⟩] }⟩ := by
  have h := (claim_C2 [9, 9, 9, 9, 9, 9, 9, 9] 0 8 tx2 seg0).2.2.2 rfl (Or.inl rfl)
  exact h.trans (by decide)

/-- C6 (confirmed): a read-only transaction's read of any word returns the
bytes of the copy indexed by the word's valid-copy flag, modifies no field
of any word's control state (the whole segment is returned unchanged), and
never aborts. -/
theorem claim_C6 (index alignment : Nat) (transaction : Transaction)
    (segment : Segment) (h_ro : transaction.is_ro = true) :
    read_word index alignment transaction segment =
      ⟨true, (readableAt segment index).take alignment, segment⟩ := by
  simp [read_word, readableAt, wordAt, h_ro]

/-- C6 witness: the read-only transaction reading word 0 of `segC4` (whose
valid copy A still holds the zero bytes) gets copy A's bytes back and leaves
the segment untouched. -/
theorem claim_C6_witness :
    read_word 0 8 ro_txn segC4 =
      ⟨true, List.replicate 8 0, segC4⟩ := by
  have h := claim_C6 0 8 ro_txn segC4 rfl
  exact h.trans (by decide)

/-- C8 (confirmed): the alignment tm_align reports for a region built by
tm_create is at least PTR_SIZE = sizeof(void *), and equals the requested
alignment whenever that is at least PTR_SIZE. -/
theorem claim_C8 (size align : Nat) :
    PTR_SIZE ≤ tm_align (tm_create size align) ∧
    (PTR_SIZE ≤ align → tm_align (tm_create size align) = align) := by
  simp only [tm_align, tm_create]
  constructor
  · split <;> omega
  · intro h
    split <;> omega

/-- C8 witness: a requested alignment of 4 is bumped to 8 = PTR_SIZE, and a
requested alignment of 16 is kept. -/
theorem claim_C8_witness :
    PTR_SIZE ≤ tm_align (tm_create 16 4) ∧
    tm_align (tm_create 32 16) = 16 := by
  exact ⟨(claim_C8 16 4).1, (claim_C8 32 16).2 (by decide)⟩

/-- C3 (code bug): a read of size 8 (alignment 8) whose source pointer names
word 1 of the three-word segment `segC3` does process exactly word 1, but it
memcpys to `target + index * alignment` with the absolute index 1 (and
read_word reads the copy array at byte offset 0, i.e. word 0's slot): slot 0
of the caller's 8-byte buffer keeps its old 99-bytes, word 0's committed
bytes 10..17 land past the end of the buffer, and word 1's committed value
18..25 is never delivered. -/
theorem claim_C3 :
    tm_read 8 data3 1 8 tx2 segC3 (List.replicate 8 99) =
      (true,
       List.replicate 8 99 ++ [10, 11, 12, 13, 14, 15, 16, 17],
       { segC3 with word_controls :=
           [⟨true, false, NO_TXN⟩, ⟨true, false, 2⟩, ⟨true, false, NO_TXN⟩] }) ∧
    (tm_read 8 data3 1 8 tx2 segC3 (List.replicate 8 99)).2.1.take 8 ≠
      (segC3.copy_a.drop 8).take 8 := by
  constructor
  · decide
  · decide

/-- C4 (code bug): transaction 2 writes `bytesB` to word 0 and its tm_end
reports commit, yet tm_end performs no commit step (no copy swap, no control
reset), so in `segC4` the word stays marked written by 2: a later read-write
transaction 3 aborts on reading the word, and a read-only transaction still
reads the stale zero bytes of copy A rather than `bytesB`. -/
theorem claim_C4 :
    (write_word bytesB 0 8 tx2 seg0).ok = true ∧
    tm_end tx2 = true ∧
    (read_word 0 8 tx3 segC4).ok = false ∧
    (read_word 0 8 ro_txn segC4).target = List.replicate 8 0 ∧
    List.replicate 8 0 ≠ bytesB := by
  refine ⟨by decide, rfl, by decide, by decide, by decide⟩

/-- C5 (code bug): in `segC5` word 0 is owned by transaction 5, so
transaction 2's read of word 0 aborts (returns false); but nothing marks the
transaction aborted (transaction_t has no such field), the subsequent read
of word 1 happily succeeds instead of short-circuiting, and tm_end still
returns true instead of the committed=false the claim requires. -/
theorem claim_C5 :
    (tm_read 8 data3 0 8 tx2 segC5 (List.replicate 8 0)).1 = false ∧
    (tm_read 8 data3 1 8 tx2 segC5 (List.replicate 8 0)).1 = true ∧
    tm_end tx2 = true := by
  refine ⟨by decide, by decide, rfl⟩

/-- C7 (amended): tm_free always reports success and never aborts the
transaction — the part_001 body is a bare `return true;` that touches
nothing, and the 338700 variant unlinks whatever segment the address names
(the first segment included) and still returns true. -/
theorem claim_C7 :
    (∀ (region : Region) (transaction : Transaction) (target : Nat),
      (tm_free region transaction target).1 = true ∧
      (tm_free region transaction target).2 = region) ∧
    (∀ (segment_list : List Nat) (target : Nat),
      (tm_free_338700 segment_list target).1 = true) :=
  ⟨fun _ _ _ => ⟨rfl, rfl⟩, fun _ _ => rfl⟩

/-- C7 counterexample: freeing the first (non-freeable) segment of a freshly
created region — named by address 0 in the model — returns true in both
tm_free variants, not the false the claim requires, and no transaction state
exists to be aborted. -/
theorem claim_C7_counterexample :
    ¬ ((tm_free (tm_create 16 8) tx2 0).1 = false) ∧
    ¬ ((tm_free_338700 [0, 1] 0).1 = false) := by
  refine ⟨?_, ?_⟩ <;> intro h <;> simp [tm_free, tm_free_338700] at h

/-! ### List and byte-buffer lemmas -/

theorem intToBytes_length (n : Nat) : (intToBytes n).length = 4 := rfl

theorem getD_append_left (l1 l2 : Bytes) (j : Nat) (h : j < l1.length) :
    (l1 ++ l2).getD j 0 = l1.getD j 0 := by
  induction l1 generalizing j with
  | nil => simp at h
  | cons a t ih =>
    cases j with
    | zero => rfl
    | succ j2 =>
      simp only [List.cons_append, List.getD_cons_succ]
      exact ih j2 (by simpa using h)

theorem getD_append_right (l1 l2 : Bytes) (i : Nat) (h : l1.length ≤ i) :
    (l1 ++ l2).getD i 0 = l2.getD (i - l1.length) 0 := by
  induction l1 generalizing i with
  | nil => simp
  | cons a t ih =>
    cases i with
    | zero => simp at h
    | succ i2 =>
      simp only [List.cons_append, List.getD_cons_succ, List.length_cons]
      rw [ih i2 (by simpa using h)]
      congr 1
      omega

theorem getD_take (l : Bytes) (n j : Nat) (h : j < n) :
    (l.take n).getD j 0 = l.getD j 0 := by
  induction l generalizing n j with
  | nil => simp
  | cons a t ih =>
    cases n with
    | zero => omega
    | succ m =>
      cases j with
      | zero => rfl
      | succ j2 =>
        simp only [List.take_succ_cons, List.getD_cons_succ]
        exact ih m j2 (by omega)

theorem writeAt_length (buf src : Bytes) (off : Nat)
    (h : off + src.length ≤ buf.length) :
    (writeAt buf off src).length = buf.length := by
  simp only [writeAt, List.length_append, List.length_take, List.length_drop]
  omega

theorem getD_writeAt_lt (buf src : Bytes) (off j : Nat) (hj : j < off)
    (hoff : off ≤ buf.length) :
    (writeAt buf off src).getD j 0 = buf.getD j 0 := by
  have hlen : j < (buf.take off).length := by
    simp only [List.length_take]; omega
  rw [writeAt, List.append_assoc, getD_append_left _ _ _ hlen]
  exact getD_take buf off j hj

theorem getD_writeAt_in (buf src : Bytes) (off j : Nat) (hj : j < src.length)
    (hoff : off ≤ buf.length) :
    (writeAt buf off src).getD (off + j) 0 = src.getD j 0 := by
  have hlen : (buf.take off).length = off := by
    simp only [List.length_take]; omega
  rw [writeAt, List.append_assoc,
    getD_append_right _ _ _ (by rw [hlen]; omega), hlen]
  have hoj : off + j - off = j := by omega
  rw [hoj]
  exact getD_append_left _ _ _ hj

/-! ### The stored-index encoding of tm_alloc -/

theorem initIndices_length (buf : Bytes) (alignment : Nat) (n : Nat)
    (h4 : 4 ≤ alignment) (hlen : alignment * n ≤ buf.length) :
    (initIndices buf alignment n).length = buf.length := by
  induction n with
  | zero => rfl
  | succ m ih =>
    have hsucc : alignment * (m + 1) = alignment * m + alignment := by ring
    have hm : alignment * m ≤ buf.length := by omega
    have hlen2 : alignment * m + (intToBytes m).length ≤
        (initIndices buf alignment m).length := by
      rw [ih hm, intToBytes_length]; omega
    simp only [initIndices, storeInt]
    rw [writeAt_length _ _ _ hlen2, ih hm]

theorem initIndices_getD (buf : Bytes) (alignment : Nat) (n k j : Nat)
    (h4 : 4 ≤ alignment) (hlen : alignment * n ≤ buf.length)
    (hk : k < n) (hj : j < 4) :
    (initIndices buf alignment n).getD (alignment * k + j) 0 =
      (intToBytes k).getD j 0 := by
  induction n with
  | zero => omega
  | succ m ih =>
    have hsucc : alignment * (m + 1) = alignment * m + alignment := by ring
    have hm : alignment * m ≤ buf.length := by omega
    have hprevlen : (initIndices buf alignment m).length = buf.length :=
      initIndices_length buf alignment m h4 hm
    simp only [initIndices, storeInt]
    by_cases hkm : k = m
    · subst hkm
      exact getD_writeAt_in (initIndices buf alignment k) (intToBytes k)
        (alignment * k) j (by rw [intToBytes_length]; omega)
        (by rw [hprevlen]; omega)
    · have hklt : k < m := by omega
      have h1 : alignment * (k + 1) ≤ alignment * m :=
        Nat.mul_le_mul_left alignment hklt
      have h2 : alignment * (k + 1) = alignment * k + alignment := by ring
      have hlt : alignment * k + j < alignment * m := by omega
      rw [getD_writeAt_lt _ _ _ _ hlt (by rw [hprevlen]; omega)]
      exact ih hm hklt

theorem intToBytes_decode (k : Nat) :
    (intToBytes k).getD 0 0 + 256 * (intToBytes k).getD 1 0 +
      65536 * (intToBytes k).getD 2 0 + 16777216 * (intToBytes k).getD 3 0 =
      k % 4294967296 := by
  simp only [intToBytes, List.getD_cons_zero, List.getD_cons_succ]
  omega

theorem segment_indices_buflen (num_words alignment : Nat) :
    alignment * num_words ≤
      (List.replicate (num_words * alignment) (0 : Nat)).length := by
  rw [List.length_replicate, Nat.mul_comm num_words alignment]

theorem intAt_segment_indices (num_words alignment k : Nat)
    (h4 : 4 ≤ alignment) (hk : k < num_words) (hbig : k < 4294967296) :
    intAt (segment_indices num_words alignment) (alignment * k) = k := by
  have hb := fun (j : Nat) (hj : j < 4) =>
    initIndices_getD (List.replicate (num_words * alignment) 0) alignment
      num_words k j h4 (segment_indices_buflen num_words alignment) hk hj
  have h0 := hb 0 (by omega)
  have h1 := hb 1 (by omega)
  have h2 := hb 2 (by omega)
  have h3 := hb 3 (by omega)
  rw [Nat.add_zero] at h0
  simp only [segment_indices, intAt]
  rw [h0, h1, h2, h3]
  have hdec := intToBytes_decode k
  omega

/-- C10 (confirmed): for a segment of `size / align` words returned by
tm_alloc, the first sizeof(int) = 4 bytes at byte offset `k * align` of the
client-visible data area hold the little-endian int `k`, decoding the int at
the client pointer of word `k` recovers `k` (the `index_start` of tm_read
line 299 / tm_write line 355), and for a length `L` that is a multiple of
the alignment, decoding at `pointer + L` recovers `k + L / align` (the
`index_end` of tm_read line 300 / tm_write line 356), so a
(pointer, length) pair resolves to its first and one-past-last word index. -/
theorem claim_C10 (size align k : Nat) (h8 : 8 ≤ align)
    (hk : k < size / align) (hbig : size / align < 4294967296) :
    (∀ j, j < 4 →
      (segment_indices (size / align) align).getD (align * k + j) 0 =
        (intToBytes k).getD j 0) ∧
    intAt (segment_indices (size / align) align) (align * k) = k ∧
    (∀ L, align ∣ L → k + L / align < size / align →
      intAt (segment_indices (size / align) align) (align * k + L) =
        k + L / align) := by
  refine ⟨?_, ?_, ?_⟩
  · intro j hj
    exact initIndices_getD _ align (size / align) k j (by omega)
      (segment_indices_buflen (size / align) align) hk hj
  · exact intAt_segment_indices (size / align) align k (by omega) hk (by omega)
  · intro L hdvd hend
    obtain ⟨c, hc⟩ := hdvd
    have hLdiv : L / align = c := by
      subst hc
      exact Nat.mul_div_cancel_left c (by omega)
    have hsum : align * k + L = align * (k + c) := by subst hc; ring
    rw [hsum, hLdiv]
    rw [hLdiv] at hend
    exact intAt_segment_indices (size / align) align (k + c) (by omega)
      hend (by omega)

/-- C10 witness: in a three-word tm_alloc segment (size 24, alignment 8),
the int stored at the pointer of word 1 decodes to 1 and the int stored 8
bytes further decodes to 2 = 1 + 8 / 8. -/
theorem claim_C10_witness :
    intAt (segment_indices (24 / 8) 8) (8 * 1) = 1 ∧
    intAt (segment_indices (24 / 8) 8) (8 * 1 + 8) = 1 + 8 / 8 := by
  have h := claim_C10 24 8 1 (by decide) (by decide) (by decide)
  exact ⟨h.2.1, h.2.2 8 ⟨1, rfl⟩ (by decide)⟩

/-! ### Valid-copy preservation -/

theorem getD_set_is_a_valid (l : List WordControl) (index : Nat)
    (a : WordControl) (ha : a.is_a_valid = true)
    (h : ∀ i, ((l.getD i default)).is_a_valid = true) :
    ∀ i, (((l.set index a).getD i default)).is_a_valid = true := by
  induction l generalizing index with
  | nil => intro i; simpa using h i
  | cons b t ih =>
    cases index with
    | zero =>
      intro i
      cases i with
      | zero => simpa using ha
      | succ i2 => simpa using h (i2 + 1)
    | succ m =>
      intro i
      cases i with
      | zero => simpa using h 0
      | succ i2 =>
        have := ih m (fun i3 => h (i3 + 1)) i2
        simpa using this

theorem write_word_preserves_valid (source : Bytes) (index alignment : Nat)
    (transaction : Transaction) (segment : Segment)
    (h : ∀ i, ((segment.word_controls.getD i default)).is_a_valid = true) :
    (write_word source index alignment transaction segment).segment.copy_a =
      segment.copy_a ∧
    ∀ i, (((write_word source index alignment transaction
      segment).segment.word_controls.getD i default)).is_a_valid = true := by
  have hw : (segment.word_controls.getD index default).is_a_valid = true :=
    h index
  simp only [write_word, setWritable, hw, if_true]
  split_ifs with h1 h2 h3
  · exact ⟨rfl, h⟩
  · exact ⟨rfl, h⟩
  · exact ⟨rfl, h⟩
  · refine ⟨rfl, ?_⟩
    exact getD_set_is_a_valid segment.word_controls index _ rfl h

theorem tm_write_loop_preserves (fuel : Nat) :
    ∀ (index alignment : Nat) (source : Bytes) (transaction : Transaction)
      (segment : Segment),
    (∀ i, ((segment.word_controls.getD i default)).is_a_valid = true) →
    (tm_write_loop fuel index alignment source transaction segment).2.copy_a =
      segment.copy_a ∧
    ∀ i, (((tm_write_loop fuel index alignment source transaction
      segment).2.word_controls.getD i default)).is_a_valid = true := by
  induction fuel with
  | zero =>
    intro index alignment source transaction segment h
    exact ⟨rfl, h⟩
  | succ m ih =>
    intro index alignment source transaction segment h
    simp only [tm_write_loop]
    obtain ⟨hA, hV⟩ := write_word_preserves_valid
      (source.drop (index * alignment)) index alignment transaction segment h
    by_cases hok : (write_word (source.drop (index * alignment)) index
        alignment transaction segment).ok = true
    · rw [if_pos hok]
      obtain ⟨hA2, hV2⟩ := ih (index + 1) alignment source transaction _ hV
      exact ⟨hA2.trans hA, hV2⟩
    · rw [if_neg hok]
      exact ⟨rfl, h⟩

/-- C9 (confirmed): a tm_write call — by any transaction, aborting or not —
leaves the readable copy of every word (the copy its valid-copy flag
selects) unchanged: under the invariant that every word's valid-copy flag
points at copy A (the value tm_create and tm_alloc establish and that no
operation in the source ever flips, there being no commit step), the whole
committed copy A survives the call byte for byte, and every valid-copy flag
still points at it afterwards. -/
theorem claim_C9 (alignment : Nat) (data : Bytes) (k size : Nat)
    (source : Bytes) (transaction : Transaction) (segment : Segment)
    (h : ∀ i, ((segment.word_controls.getD i default)).is_a_valid = true) :
    (∀ i, readableCopy
        (tm_write alignment data k size source transaction segment).2 i =
      readableCopy segment i) ∧
    (tm_write alignment data k size source transaction segment).2.copy_a =
      segment.copy_a ∧
    ∀ i, (((tm_write alignment data k size source transaction
      segment).2.word_controls.getD i default)).is_a_valid = true := by
  obtain ⟨hA, hV⟩ := tm_write_loop_preserves
    (intAt data (k * alignment + size) - intAt data (k * alignment))
    (intAt data (k * alignment)) alignment source transaction segment h
  refine ⟨fun i => ?_, hA, hV⟩
  simp only [readableCopy, wordAt, tm_write]
  rw [hV i, h i, hA]
  simp

/-- C9 witness: transaction 2 writing eight 7-bytes over word 0 of the
all-copy-A-valid segment `segC3` leaves every word's readable copy — the
whole copy A with bytes 10..33 — untouched. -/
theorem claim_C9_witness :
    readableCopy (tm_write 8 data3 0 8 (List.replicate 24 7) tx2 segC3).2 0 =
      readableCopy segC3 0 ∧
    (tm_write 8 data3 0 8 (List.replicate 24 7) tx2 segC3).2.copy_a =
      segC3.copy_a := by
  have hvalid : ∀ i, ((segC3.word_controls.getD i default)).is_a_valid = true := by
    intro i
    rcases i with _ | _ | _ | n <;> rfl
  have h := claim_C9 8 data3 0 8 (List.replicate 24 7) tx2 segC3 hvalid
  exact ⟨h.1 0, h.2.1⟩
